import Mathlib

/-!
Verification of the capture-group name resolution engine of the
regexp-named library (package regexp_named).

The pattern scanner (parseBytes), the name-table builder (buildMap), the
construction function (Compile) and the match projection layer (mapRe,
mapReAll and the eight Find*Named operations) are embedded here at the
byte level, faithful to the source.  The external regular-expression
matching engine and the UTF-8 decoding routine are external
collaborators; they are modelled from the specification where a claim
needs them, and every such model is marked in its doc comment.

Patterns and subjects are byte sequences, represented as `List Nat`
(each element a byte value).  Strings of the host language are byte
strings, so group names are also `List Nat`.
-/

/-- The replacement character U+FFFD, the result Go's utf8.DecodeRune
returns for invalid encodings. -/
def RuneError : Nat := 65533

/-- UTF-8 continuation byte test (0x80 - 0xBF). -/
def isCont (b : Nat) : Bool := 128 ≤ b && b ≤ 191

/-- Accept range for the second byte of a three-byte sequence,
indexed by the first byte (0xE0 needs 0xA0-0xBF, 0xED needs 0x80-0x9F). -/
def accept3 (b0 b1 : Nat) : Bool :=
  if b0 = 224 then 160 ≤ b1 && b1 ≤ 191
  else if b0 = 237 then 128 ≤ b1 && b1 ≤ 159
  else isCont b1

/-- Accept range for the second byte of a four-byte sequence,
indexed by the first byte (0xF0 needs 0x90-0xBF, 0xF4 needs 0x80-0x8F). -/
def accept4 (b0 b1 : Nat) : Bool :=
  if b0 = 240 then 144 ≤ b1 && b1 ≤ 191
  else if b0 = 244 then 128 ≤ b1 && b1 ≤ 143
  else isCont b1

/-- Modelled from the spec: the external UTF-8 decoding routine
(Go's utf8.DecodeRune), which the scanner uses to read one character
unit.  Returns the decoded code point and the number of bytes consumed;
on an invalid or truncated encoding it returns (RuneError, 1), and on
empty input (RuneError, 0).  A valid three-byte encoding of U+FFFD
itself decodes to (RuneError, 3). -/
def decodeRune : List Nat → Nat × Nat
  | [] => (RuneError, 0)
  | b0 :: rest =>
    if b0 < 128 then (b0, 1)
    else if b0 < 194 then (RuneError, 1)
    else if b0 ≤ 223 then
      match rest with
      | b1 :: _ => if isCont b1 then ((b0 % 32) * 64 + b1 % 64, 2) else (RuneError, 1)
      | [] => (RuneError, 1)
    else if b0 ≤ 239 then
      match rest with
      | b1 :: b2 :: _ =>
        if accept3 b0 b1 && isCont b2 then ((b0 % 16) * 4096 + (b1 % 64) * 64 + b2 % 64, 3)
        else (RuneError, 1)
      | _ => (RuneError, 1)
    else if b0 ≤ 244 then
      match rest with
      | b1 :: b2 :: b3 :: _ =>
        if accept4 b0 b1 && isCont b2 && isCont b3 then
          ((b0 % 8) * 262144 + (b1 % 64) * 4096 + (b2 % 64) * 64 + b3 % 64, 4)
        else (RuneError, 1)
      | _ => (RuneError, 1)
    else (RuneError, 1)

/-- Scan for the closing angle bracket of a name-capture marker:
the name is the run of bytes before the first 0x3E, failing on a
newline byte or end of input.  Models the lazy capture of the helper
pattern reNamedMatch applied after its literal head. -/
def scanName : List Nat → Option (List Nat × List Nat)
  | [] => none
  | b :: rest =>
    if b = 62 then some ([], rest)
    else if b = 10 then none
    else
      match scanName rest with
      | some (nm, r) => some (b :: nm, r)
      | none => none

/-- The helper pattern reNamedMatch of the source, at byte level: a
name-capture marker at the head of the input.  On success it returns
the name bytes and the input just after the closing angle bracket,
which is the position input gets advanced to in the source. -/
def namedMarker (l : List Nat) : Option (List Nat × List Nat) :=
  match l with
  | b :: c :: d :: rest =>
    if b = 63 && c = 80 && d = 60 then scanName rest else none
  | _ => none

/-- The sentinel the scanner stores for a capturing group with no name:
the bytes of the string UnnamedCapture, the UTF-8 encoding of U+FFFD. -/
def UnnamedCapture : List Nat := [239, 191, 189]

/-- Error message of the source for a pattern that ends with the escape
marker. -/
def TrailingEscapeMsg : String :=
  "error parsing named regexp: trailing backslash at end of expression"

/-- Error message of the source for bytes after the escape marker that
decode to RuneError. -/
def InvalidEscapeMsg : String :=
  "error parsing named regexp: incorrect rune after backslash"

/-- Never-returned marker for fuel exhaustion of parseBytesF; the fuel
passed by parseBytes always suffices because every step of the scanner
consumes at least one byte. -/
def FuelMsg : String := "fuel exhausted"

/-- Fuel-indexed form of the scanner parseBytes of the source.  One
step reads one character unit; the escape marker skips the following
unit (failing on end of input or RuneError); an opening delimiter
records a Named, no, or Unnamed descriptor after probing for the
name-capture and non-capturing markers; everything else is skipped.
The non-capturing branch advances by the marker length plus one, which
is what the source's slice arithmetic does. -/
def parseBytesF : Nat → List Nat → Except String (List (List Nat))
  | _, [] => .ok []
  | 0, _ :: _ => .error FuelMsg
  | f + 1, b :: bs =>
    if (decodeRune (b :: bs)).1 = 92 then
      match (b :: bs).drop (decodeRune (b :: bs)).2 with
      | [] => .error TrailingEscapeMsg
      | c :: cs =>
        if (decodeRune (c :: cs)).1 = RuneError then .error InvalidEscapeMsg
        else parseBytesF f ((c :: cs).drop (decodeRune (c :: cs)).2)
    else if (decodeRune (b :: bs)).1 = 40 then
      match namedMarker ((b :: bs).drop (decodeRune (b :: bs)).2) with
      | some (name, rest2) => (parseBytesF f rest2).map (fun r => name :: r)
      | none =>
        match (b :: bs).drop (decodeRune (b :: bs)).2 with
        | 63 :: 58 :: rest2 => parseBytesF f (rest2.drop 1)
        | rest => (parseBytesF f rest).map (fun r => UnnamedCapture :: r)
    else parseBytesF f ((b :: bs).drop (decodeRune (b :: bs)).2)

/-- The scanner parseBytes of the source: returns the descriptor
sequence (group names in order of opening delimiter, UnnamedCapture for
a capturing group with no name), or an error. -/
def parseBytes (input : List Nat) : Except String (List (List Nat)) :=
  parseBytesF input.length input

/-- Error message of the source for a duplicated group name. -/
def DuplicateMsg : String := "error parsing named regexp: duplicate named group"

/-- Membership of a name among the keys accumulated so far; models the
map lookup of the source's buildMap. -/
def hasKey (acc : List (List Nat × Nat)) (n : List Nat) : Bool :=
  acc.any (fun p => p.1 == n)

/-- Loop of buildMap of the source: walks the descriptor sequence left
to right with its zero-based position i, skips the UnnamedCapture
sentinel, fails on the first name already present, and otherwise
records name to i + 1. -/
def buildMapGo : List (List Nat) → Nat → List (List Nat × Nat) →
    Except String (List (List Nat × Nat))
  | [], _, acc => .ok acc
  | name :: rest, i, acc =>
    if name == UnnamedCapture then buildMapGo rest (i + 1) acc
    else if hasKey acc name then .error DuplicateMsg
    else buildMapGo rest (i + 1) (acc ++ [(name, i + 1)])

/-- buildMap of the source: name table from the descriptor sequence. -/
def buildMap (l : List (List Nat)) : Except String (List (List Nat × Nat)) :=
  buildMapGo l 0 []

/-- The RegexpNamed facade of the source: the name table together with
the matcher compiled by the external engine (type parameter M, since
the engine is external). -/
structure RegexpNamed (M : Type) where
  namedMap : List (List Nat × Nat)
  regexp : M
deriving DecidableEq, Repr

/-- Compile of the source, parametrised by the verdict of the external
engine's own compilation on the same pattern text: the engine error is
surfaced first, then the scanner's, then the table builder's; on full
success the facade holds the name table and the compiled matcher. -/
def CompileWith {M : Type} (engine : Except String M) (re : List Nat) :
    Except String (RegexpNamed M) :=
  match engine with
  | .error e => .error e
  | .ok m =>
    match parseBytes re with
    | .error e => .error e
    | .ok parsed =>
      match buildMap parsed with
      | .error e => .error e
      | .ok t => .ok ⟨t, m⟩

/-- getResult of the source: plain indexing match[pos].  Out-of-range
indexing aborts the host program, which is modelled by none. -/
def getResult {T : Type} (m : List T) (pos : Nat) : Option T :=
  m.get? pos

/-- getResultIndex of the source: the slice match[pos*2 : pos*2+2].
A slice bound beyond the length aborts the host program, modelled by
none. -/
def getResultIndex {T : Type} (m : List T) (pos : Nat) : Option (List T) :=
  if pos * 2 + 2 ≤ m.length then some ((m.drop (pos * 2)).take 2) else none

/-- Sequencing of fallible per-element computations, modelling a loop
whose body may abort the host program: the first failing element
aborts the whole computation. -/
def mapMopt {A B : Type} : List A → (A → Option B) → Option (List B)
  | [], _ => some []
  | a :: t, f =>
    match f a with
    | none => none
    | some b =>
      match mapMopt t f with
      | none => none
      | some r => some (b :: r)

/-- mapRe of the source.  The raw match handed over by the external
engine is none when the engine reported no match; in that case the
result is the zero value paired with the absent (nil) mapping.
Otherwise every name of the table is projected through resultFunc at
its stored index and the base is the projection at index 0; the outer
none models the abort on an out-of-range index. -/
def mapRe {M T S : Type} (re : RegexpNamed M) (submatches : Option (List T))
    (resultFunc : List T → Nat → Option S) (zero : S) :
    Option (S × Option (List (List Nat × S))) :=
  match submatches with
  | none => some (zero, none)
  | some m =>
    match mapMopt re.namedMap (fun p => (resultFunc m p.2).map (fun v => (p.1, v))) with
    | none => none
    | some rv =>
      match resultFunc m 0 with
      | none => none
      | some base => some (base, some rv)

/-- mapReAll of the source: applies mapRe to every raw match of the
ordered sequence the engine returned, collecting the bases and the
mappings in two parallel sequences. -/
def mapReAll {M T S : Type} (re : RegexpNamed M) (ms : List (List T))
    (f : List T → Nat → Option S) (zero : S) :
    Option (List S × List (Option (List (List Nat × S)))) :=
  match ms with
  | [] => some ([], [])
  | m :: rest =>
    match mapRe re (some m) f zero with
    | none => none
    | some p =>
      match mapReAll re rest f zero with
      | none => none
      | some q => some (p.1 :: q.1, p.2 :: q.2)

/-- Byte strings, the value shape of the byte-encoded operations. -/
abbrev Bytes := List Nat

/-- FindNamed of the source, with the raw result of the external
engine's FindSubmatch passed explicitly (none when the engine reported
no match). -/
def FindNamed {M : Type} (re : RegexpNamed M) (raw : Option (List Bytes)) :
    Option (Bytes × Option (List (List Nat × Bytes))) :=
  mapRe re raw getResult []

/-- FindIndexNamed of the source, with the raw result of the external
engine's FindSubmatchIndex passed explicitly. -/
def FindIndexNamed {M : Type} (re : RegexpNamed M) (raw : Option (List Int)) :
    Option (List Int × Option (List (List Nat × List Int))) :=
  mapRe re raw getResultIndex []

/-- FindStringNamed of the source, with the raw result of the external
engine's FindStringSubmatch passed explicitly. -/
def FindStringNamed {M : Type} (re : RegexpNamed M) (raw : Option (List String)) :
    Option (String × Option (List (List Nat × String))) :=
  mapRe re raw getResult ""

/-- FindStringIndexNamed of the source, with the raw result of the
external engine's FindStringSubmatchIndex passed explicitly. -/
def FindStringIndexNamed {M : Type} (re : RegexpNamed M) (raw : Option (List Int)) :
    Option (List Int × Option (List (List Nat × List Int))) :=
  mapRe re raw getResultIndex []

/-- FindAllNamed of the source, with the sequence of raw matches of the
external engine's FindAllSubmatch passed explicitly. -/
def FindAllNamed {M : Type} (re : RegexpNamed M) (raws : List (List Bytes)) :
    Option (List Bytes × List (Option (List (List Nat × Bytes)))) :=
  mapReAll re raws getResult []

/-- FindAllIndexNamed of the source. -/
def FindAllIndexNamed {M : Type} (re : RegexpNamed M) (raws : List (List Int)) :
    Option (List (List Int) × List (Option (List (List Nat × List Int)))) :=
  mapReAll re raws getResultIndex []

/-- FindAllStringNamed of the source. -/
def FindAllStringNamed {M : Type} (re : RegexpNamed M) (raws : List (List String)) :
    Option (List String × List (Option (List (List Nat × String)))) :=
  mapReAll re raws getResult ""

/-- FindAllStringIndexNamed of the source. -/
def FindAllStringIndexNamed {M : Type} (re : RegexpNamed M) (raws : List (List Int)) :
    Option (List (List Int) × List (Option (List (List Nat × List Int)))) :=
  mapReAll re raws getResultIndex []

/-- Modelled from the spec: the external engine's enumeration of the
capture groups of a pattern, in order of opening delimiter, with
non-capturing groups (marked by the non-capturing marker) excluded
from numbering and escaped delimiters treated as literals.  An entry
is the name of a named group or none for an unnamed capturing group;
the 1-based group index of an entry is its position plus one. -/
def engineDescrs : List Nat → List (Option (List Nat))
  | [] => []
  | 92 :: _ :: rest => engineDescrs rest
  | 40 :: 63 :: 58 :: rest => engineDescrs rest
  | 40 :: rest =>
    (match namedMarker rest with
     | some (nm, _) => some nm
     | none => none) :: engineDescrs rest
  | _ :: rest => engineDescrs rest

/-- Modelled from the spec: the bytes after the escape marker begin
with a valid character unit.  The external decoder reports a non-error
code point exactly for valid units of characters other than U+FFFD;
the only valid unit it reports RuneError for is the three-byte
encoding of U+FFFD itself. -/
def startsWithValidChar (l : List Nat) : Bool :=
  decide ((decodeRune l).1 ≠ RuneError) || decide (l.take 3 = UnnamedCapture)

/-- Byte sequence of an ASCII string literal. -/
def strBytes (s : String) : List Nat := s.toList.map Char.toNat

/-- The pattern of the worked example of the source documentation. -/
def examplePat : List Nat := strBytes ("(?P<name>\\w+) (?P<age>\\d+)")

/-- The unbalanced pattern of the spec, accepted by the scanner but
rejected by the external engine. -/
def unbalancedPat : List Nat := strBytes ("(?P<name>\\w+) (?P<age>\\d+")

/-- The duplicated-name pattern of the spec. -/
def dupPat : List Nat := strBytes ("(?P<name>\\w+) (?P<name>\\d+)")

/-- The trailing-escape pattern of the source's tests. -/
def trailingPat : List Nat := strBytes ("(?P<name>\\w+)\\")

/-- The optional-group pattern of the repeated-search example. -/
def optionalPat : List Nat := strBytes ("(?P<name>\\w+)? (?P<age>\\d+)")

/-- A non-capturing group immediately followed by an unnamed capturing
group, then a named group. -/
def nestedCapPat : List Nat := strBytes ("(?:(a))(?P<x>b)")

/-- A non-capturing group whose body starts with an escaped opening
delimiter made optional, followed by literal text that spells a
name-capture marker. -/
def phantomPat : List Nat := strBytes ("(?:\\(?P<x>y)")

/-- A pattern with two named groups whose name is exactly the
replacement character U+FFFD. -/
def fffdPat : List Nat :=
  strBytes ("(?P<") ++ UnnamedCapture ++ strBytes (">a)(?P<") ++
    UnnamedCapture ++ strBytes (">b)")

/-- Bytes of the name of the first group of the worked example. -/
def nameB : List Nat := strBytes ("name")

/-- Bytes of the name of the second group of the worked example. -/
def ageB : List Nat := strBytes ("age")

/-- Bytes of the single-letter group name of the phantom patterns. -/
def xB : List Nat := strBytes ("x")

/-- A stand-in for the text of a syntax error of the external engine. -/
def SyntaxErrMsg : String := "SyntaxError"

/-- The facade obtained by compiling the worked example pattern (and
also the optional-group pattern) against an engine modelled as Unit. -/
def exampleRe : RegexpNamed Unit := ⟨[(nameB, 1), (ageB, 2)], ()⟩

/-- The facade obtained by compiling the phantom pattern. -/
def phantomRe : RegexpNamed Unit := ⟨[(xB, 1)], ()⟩

/-! Helper lemmas about the scanner. -/

/-- Decoding a nonempty byte sequence consumes at least one byte. -/
theorem decodeRune_snd_pos (b : Nat) (bs : List Nat) : 1 ≤ (decodeRune (b :: bs)).2 := by
  simp only [decodeRune]
  repeat' split
  all_goals norm_num

/-- Decoding starts with the first byte itself when it is ASCII. -/
theorem decodeRune_ascii (b : Nat) (bs : List Nat) (h : b < 128) :
    decodeRune (b :: bs) = (b, 1) := by
  simp [decodeRune, h]

/-- The closing-bracket scan strictly shortens the input. -/
theorem scanName_rest_lt : ∀ (l nm r : List Nat),
    scanName l = some (nm, r) → r.length < l.length := by
  intro l
  induction l with
  | nil => intro nm r h; simp [scanName] at h
  | cons b rest ih =>
    intro nm r h
    simp only [scanName] at h
    split at h
    · simp only [Option.some.injEq, Prod.mk.injEq] at h
      obtain ⟨-, h2⟩ := h
      cases h2
      simp
    · split at h
      · simp at h
      · cases hs : scanName rest with
        | none => rw [hs] at h; simp at h
        | some p =>
          obtain ⟨nm2, r2⟩ := p
          rw [hs] at h
          simp only [Option.some.injEq, Prod.mk.injEq] at h
          obtain ⟨-, h2⟩ := h
          have hlt := ih nm2 r2 hs
          cases h2
          simp only [List.length_cons]
          omega

/-- A recognised name-capture marker consumes at least four bytes. -/
theorem namedMarker_rest_le : ∀ (l nm r : List Nat),
    namedMarker l = some (nm, r) → r.length + 4 ≤ l.length := by
  intro l nm r h
  match l with
  | [] => simp [namedMarker] at h
  | [_] => simp [namedMarker] at h
  | [_, _] => simp [namedMarker] at h
  | b :: c :: d :: rest =>
    simp only [namedMarker] at h
    split at h
    · have := scanName_rest_lt rest nm r h
      simp only [List.length_cons]
      omega
    · simp at h

/-- Any two sufficient fuels give the scanner the same result. -/
theorem parseBytesF_congr : ∀ (f g : Nat) (l : List Nat),
    l.length ≤ f → l.length ≤ g → parseBytesF f l = parseBytesF g l := by
  intro f
  induction f with
  | zero =>
    intro g l hf _
    have hl : l = [] := List.length_eq_zero.mp (Nat.le_zero.mp hf)
    subst hl
    cases g <;> rfl
  | succ f ih =>
    intro g l hf hg
    match l with
    | [] => cases g <;> rfl
    | b :: bs =>
      match g with
      | 0 => simp at hg
      | g + 1 =>
        have hdp := decodeRune_snd_pos b bs
        have hrest : ((b :: bs).drop (decodeRune (b :: bs)).2).length ≤ bs.length := by
          simp only [List.length_drop, List.length_cons]
          omega
        have hfl : bs.length ≤ f := by
          simp only [List.length_cons] at hf
          omega
        have hgl : bs.length ≤ g := by
          simp only [List.length_cons] at hg
          omega
        simp only [parseBytesF]
        split
        · split
          · rfl
          · rename_i c cs heq
            have hcs : (c :: cs).length ≤ bs.length := heq ▸ hrest
            simp only [List.length_cons] at hcs
            split
            · rfl
            · apply ih
              · simp only [List.length_drop, List.length_cons]
                omega
              · simp only [List.length_drop, List.length_cons]
                omega
        · split
          · split
            · rename_i nm rest2 heq
              have h4 := namedMarker_rest_le _ nm rest2 heq
              rw [ih g rest2 (by omega) (by omega)]
            · split
              · rename_i rest2 heq
                have hlen := congrArg List.length heq
                simp only [List.length_cons] at hlen
                apply ih
                · simp only [List.length_drop]
                  omega
                · simp only [List.length_drop]
                  omega
              · rw [ih g _ (hrest.trans hfl) (hrest.trans hgl)]
          · exact ih g _ (hrest.trans hfl) (hrest.trans hgl)


/-- One scanner step at an escape marker followed by at least one byte:
if the following bytes decode to RuneError the scanner fails with the
invalid-escape error, and otherwise the decoded unit is skipped
verbatim and scanning resumes after it. -/
theorem escape_step (c : Nat) (cs : List Nat) :
    ((decodeRune (c :: cs)).1 = RuneError →
      parseBytes (92 :: c :: cs) = .error InvalidEscapeMsg) ∧
    ((decodeRune (c :: cs)).1 ≠ RuneError →
      parseBytes (92 :: c :: cs) = parseBytes ((c :: cs).drop (decodeRune (c :: cs)).2)) := by
  have h92 : decodeRune (92 :: c :: cs) = (92, 1) := decodeRune_ascii 92 (c :: cs) (by norm_num)
  have hstep : parseBytes (92 :: c :: cs) =
      if (decodeRune (c :: cs)).1 = RuneError then .error InvalidEscapeMsg
      else parseBytesF (cs.length + 1) ((c :: cs).drop (decodeRune (c :: cs)).2) := by
    show parseBytesF (cs.length + 1 + 1) (92 :: c :: cs) = _
    simp only [parseBytesF, h92]
    norm_num
  constructor
  · intro hre
    rw [hstep, if_pos hre]
  · intro hre
    rw [hstep, if_neg hre]
    show _ = parseBytesF ((c :: cs).drop (decodeRune (c :: cs)).2).length _
    apply parseBytesF_congr
    · have := decodeRune_snd_pos c cs
      simp only [List.length_drop, List.length_cons]
      omega
    · exact Nat.le_refl _

/-! Helper lemmas about the table builder and the projection layer. -/

/-- The builder loop fails with the duplicate error whenever a
non-sentinel name occurs twice in the remaining input, or occurs there
and is already a key of the accumulator. -/
theorem buildMapGo_dup : ∀ (l : List (List Nat)) (i : Nat) (acc : List (List Nat × Nat))
    (n : List Nat), n ≠ UnnamedCapture →
    (2 ≤ l.count n ∨ (1 ≤ l.count n ∧ hasKey acc n = true)) →
    buildMapGo l i acc = .error DuplicateMsg := by
  intro l
  induction l with
  | nil =>
    intro i acc n hn hcase
    simp [List.count_nil] at hcase
  | cons h t ih =>
    intro i acc n hn hcase
    by_cases hhu : h = UnnamedCapture
    · have hstep : buildMapGo (h :: t) i acc = buildMapGo t (i + 1) acc := by
        simp [buildMapGo, hhu]
      rw [hstep]
      apply ih (i + 1) acc n hn
      have hc : List.count n (h :: t) = List.count n t := by
        rw [hhu]
        exact List.count_cons_of_ne hn t
      rwa [hc] at hcase
    · by_cases hk : hasKey acc h = true
      · simp [buildMapGo, beq_iff_eq, hhu, hk]
      · have hk' : hasKey acc h = false := by
          simpa using hk
        have hstep : buildMapGo (h :: t) i acc =
            buildMapGo t (i + 1) (acc ++ [(h, i + 1)]) := by
          simp [buildMapGo, beq_iff_eq, hhu, hk']
        rw [hstep]
        apply ih (i + 1) _ n hn
        by_cases hnh : n = h
        · subst hnh
          right
          constructor
          · rcases hcase with h2 | ⟨h1, hkey⟩
            · rw [List.count_cons_self] at h2
              omega
            · rw [hk'] at hkey
              simp at hkey
          · simp [hasKey]
        · rcases hcase with h2 | ⟨h1, hkey⟩
          · left
            rwa [List.count_cons_of_ne hnh] at h2
          · right
            refine ⟨by rwa [List.count_cons_of_ne hnh] at h1, ?_⟩
            simp only [hasKey, List.any_append, Bool.or_eq_true]
            simp only [hasKey] at hkey
            exact Or.inl hkey

/-- Sequencing succeeds pointwise when every element succeeds. -/
theorem mapMopt_eq_map {A B : Type} : ∀ (l : List A) (f : A → Option B) (g : A → B),
    (∀ x ∈ l, f x = some (g x)) → mapMopt l f = some (l.map g) := by
  intro l
  induction l with
  | nil =>
    intro f g _
    rfl
  | cons a t ih =>
    intro f g h
    have ha := h a (by simp)
    have ht := ih f g (fun x hx => h x (by simp [hx]))
    simp [mapMopt, ha, ht]

/-- In-bounds list indexing yields the element, phrased with a default. -/
theorem get_opt_of_lt {T : Type} (d : T) : ∀ (m : List T) (i : Nat),
    i < m.length → m.get? i = some (m.getD i d) := by
  intro m
  induction m with
  | nil =>
    intro i hi
    simp at hi
  | cons a t ih =>
    intro i hi
    cases i with
    | zero => rfl
    | succ j =>
      have := ih j (by simpa using hi)
      simpa using this

/-- Two consecutive in-bounds elements of a list, as a drop-take slice. -/
theorem drop_take_two {T : Type} (d : T) : ∀ (m : List T) (n : Nat), n + 2 ≤ m.length →
    (m.drop n).take 2 = [m.getD n d, m.getD (n + 1) d] := by
  intro m
  induction m with
  | nil =>
    intro n h
    simp at h
  | cons a t ih =>
    intro n h
    cases n with
    | zero =>
      match t with
      | [] => simp at h
      | b :: t2 => rfl
    | succ j =>
      simp only [List.drop_succ_cons, List.getD_cons_succ]
      exact ih j (by simpa using h)

/-- The index-pair projection at an in-bounds group position. -/
theorem getResultIndex_eq {T : Type} (d : T) (m : List T) (i : Nat)
    (h : i * 2 + 2 ≤ m.length) :
    getResultIndex m i = some [m.getD (i * 2) d, m.getD (i * 2 + 1) d] := by
  simp [getResultIndex, h, drop_take_two d m (i * 2) h]

/-- Successful single-result projection, pointwise: the base is the
projection at index 0 and every table entry is projected at its stored
index. -/
theorem mapRe_some {M T S : Type} (re : RegexpNamed M) (m : List T)
    (f : List T → Nat → Option S) (zero b0 : S) (g : List Nat × Nat → S)
    (h0 : f m 0 = some b0)
    (hp : ∀ p ∈ re.namedMap, f m p.2 = some (g p)) :
    mapRe re (some m) f zero = some (b0, some (re.namedMap.map (fun p => (p.1, g p)))) := by
  have hm := mapMopt_eq_map re.namedMap
    (fun p => (f m p.2).map (fun v => (p.1, v))) (fun p => (p.1, g p))
    (by
      intro x hx
      simp [hp x hx])
  simp [mapRe, hm, h0]

/-- A successful projection of a present raw match always carries a
present mapping. -/
theorem mapRe_snd_present {M T S : Type} (re : RegexpNamed M) (m : List T)
    (f : List T → Nat → Option S) (zero b : S) (mm : Option (List (List Nat × S)))
    (h : mapRe re (some m) f zero = some (b, mm)) : mm ≠ none := by
  simp only [mapRe] at h
  split at h
  · simp at h
  · split at h
    · simp at h
    · simp only [Option.some.injEq, Prod.mk.injEq] at h
      obtain ⟨-, h2⟩ := h
      rw [← h2]
      simp

/-- Repeated projection is the pointwise single projection: lengths are
preserved and the j-th output pair is the projection of the j-th raw
match. -/
theorem mapReAll_spec {M T S : Type} (re : RegexpNamed M)
    (f : List T → Nat → Option S) (zero : S) :
    ∀ (ms : List (List T)) (bs : List S) (mm : List (Option (List (List Nat × S)))),
      mapReAll re ms f zero = some (bs, mm) →
      bs.length = ms.length ∧ mm.length = ms.length ∧
      ∀ (j : Nat) (m : List T), ms.get? j = some m →
        ∃ b p, bs.get? j = some b ∧ mm.get? j = some p ∧
          mapRe re (some m) f zero = some (b, p) := by
  intro ms
  induction ms with
  | nil =>
    intro bs mm h
    simp only [mapReAll, Option.some.injEq, Prod.mk.injEq] at h
    obtain ⟨h1, h2⟩ := h
    subst h1
    subst h2
    refine ⟨rfl, rfl, ?_⟩
    intro j m hj
    simp at hj
  | cons m rest ih =>
    intro bs mm h
    simp only [mapReAll] at h
    cases h1 : mapRe re (some m) f zero with
    | none =>
      rw [h1] at h
      simp at h
    | some p =>
      rw [h1] at h
      cases h2 : mapReAll re rest f zero with
      | none =>
        rw [h2] at h
        simp at h
      | some q =>
        rw [h2] at h
        simp only [Option.some.injEq, Prod.mk.injEq] at h
        obtain ⟨hb, hm⟩ := h
        subst hb
        subst hm
        obtain ⟨l1, l2, hget⟩ := ih q.1 q.2 (by simpa using h2)
        refine ⟨by simp [l1], by simp [l2], ?_⟩
        intro j mj hj
        cases j with
        | zero =>
          simp only [List.get?_cons_zero, Option.some.injEq] at hj
          subst hj
          exact ⟨p.1, p.2, by simp, by simp, by simpa using h1⟩
        | succ k =>
          simp only [List.get?_cons_succ] at hj ⊢
          exact hget k mj hj

/-! Claim theorems. -/

/-- Claim C1: for every pattern accepted by Compile the name table is
claimed to map each name to the 1-based ordinal of its group among the
engine's capturing groups.  The code violates this: compiling the
pattern of nestedCapPat (a non-capturing group enclosing an unnamed
capturing group, followed by a named group) succeeds and maps the name
x to index 1, although the engine's own enumeration places the unnamed
group first and the group named x second, so its engine ordinal is 2.
The extra byte the scanner skips after the non-capturing marker
swallows the inner opening delimiter. -/
theorem claim_C1 :
    CompileWith (Except.ok ()) nestedCapPat = .ok ⟨[(xB, 1)], ()⟩ ∧
    engineDescrs nestedCapPat = [none, some xB] ∧
    ([(xB, 1)] : List (List Nat × Nat)).lookup xB = some 1 ∧
    (engineDescrs nestedCapPat).indexOf (some xB) + 1 = 2 ∧
    ([(xB, 1)] : List (List Nat × Nat)).lookup xB ≠
      some ((engineDescrs nestedCapPat).indexOf (some xB) + 1) :=
  ⟨rfl, rfl, rfl, rfl, by decide⟩

/-- Claim C2: the name-aware search operations are claimed never to
fail because every table index stays within the raw match.  The code
violates this: the phantom pattern compiles to a table mapping x to
index 1 while the engine sees no capturing group at all, so a raw
match holds only the whole-match element and the projection's indexing
goes out of range (modelled by none, an abort of the host program). -/
theorem claim_C2 :
    CompileWith (Except.ok ()) phantomPat = .ok phantomRe ∧
    engineDescrs phantomPat = [] ∧
    (["P<x>y"] : List String).length = (engineDescrs phantomPat).length + 1 ∧
    FindStringNamed phantomRe (some ["P<x>y"]) = none ∧
    FindStringIndexNamed phantomRe (some [0, 5]) = none :=
  ⟨rfl, rfl, rfl, rfl, rfl⟩

/-- Claim C10: a named group whose name is exactly the replacement
character U+FFFD is silently treated as unnamed, because the scanner
reuses that string as its sentinel: the pattern of fffdPat contains two
groups so named, the scanner returns two sentinel descriptors, the
table omits the name, and no duplicate error is raised - although the
same name text twice on genuinely named groups (xB) does raise one. -/
theorem claim_C10 :
    parseBytes fffdPat = .ok [UnnamedCapture, UnnamedCapture] ∧
    buildMap [UnnamedCapture, UnnamedCapture] = .ok [] ∧
    buildMap [xB, xB] = .error DuplicateMsg :=
  ⟨rfl, rfl, rfl⟩

/-- Claim C3: Compile fails exactly when the external engine's
compilation fails (surfacing the engine's error) or the scanner or the
table builder fails (surfacing that stage's error), and succeeds with
the facade holding both results exactly when all succeed; the
unbalanced pattern is accepted by the scanner itself, so its failure is
the engine's. -/
theorem claim_C3 : ∀ (M : Type) (er : Except String M) (re : List Nat),
    ((∃ r, CompileWith er re = .ok r) ↔
      (∃ m, er = .ok m) ∧ ∃ p, parseBytes re = .ok p ∧ ∃ t, buildMap p = .ok t) ∧
    (∀ e, er = .error e → CompileWith er re = .error e) ∧
    (∀ m e, er = .ok m → parseBytes re = .error e → CompileWith er re = .error e) ∧
    (∀ m p e, er = .ok m → parseBytes re = .ok p → buildMap p = .error e →
      CompileWith er re = .error e) ∧
    (∀ m p t, er = .ok m → parseBytes re = .ok p → buildMap p = .ok t →
      CompileWith er re = .ok ⟨t, m⟩) ∧
    parseBytes unbalancedPat = .ok [nameB, ageB] := by
  intro M er re
  refine ⟨⟨?_, ?_⟩, ?_, ?_, ?_, ?_, rfl⟩
  · rintro ⟨r, hr⟩
    cases er with
    | error e => simp [CompileWith] at hr
    | ok m =>
      cases hp : parseBytes re with
      | error e => simp [CompileWith, hp] at hr
      | ok p =>
        cases ht : buildMap p with
        | error e => simp [CompileWith, hp, ht] at hr
        | ok t => exact ⟨⟨m, rfl⟩, p, rfl, t, ht⟩
  · rintro ⟨⟨m, hm⟩, p, hp, t, ht⟩
    subst hm
    exact ⟨⟨t, m⟩, by simp [CompileWith, hp, ht]⟩
  · intro e he
    subst he
    rfl
  · intro m e hm hp
    subst hm
    simp [CompileWith, hp]
  · intro m p e hm hp ht
    subst hm
    simp [CompileWith, hp, ht]
  · intro m p t hm hp ht
    subst hm
    simp [CompileWith, hp, ht]

/-- Witness for claim C3 at a concrete input: an engine that rejects
the unbalanced pattern has its error surfaced verbatim by Compile. -/
theorem claim_C3_witness :
    ((Except.error SyntaxErrMsg : Except String Unit) = Except.error SyntaxErrMsg) ∧
    CompileWith (Except.error SyntaxErrMsg : Except String Unit) unbalancedPat =
      Except.error SyntaxErrMsg :=
  ⟨rfl, (claim_C3 Unit (Except.error SyntaxErrMsg) unbalancedPat).2.1 SyntaxErrMsg rfl⟩

/-- Claim C4 (amended): whenever a non-sentinel name occurs on two
distinct descriptors, building the name table fails with the
duplicate-name error - a fixed message that does not carry the
offending name - and compiling the duplicated-name pattern fails under
every engine verdict. -/
theorem claim_C4 :
    (∀ (l : List (List Nat)) (n : List Nat), n ≠ UnnamedCapture → 2 ≤ l.count n →
      buildMap l = .error DuplicateMsg) ∧
    (∀ (M : Type) (er : Except String M), ¬∃ r, CompileWith er dupPat = .ok r) := by
  constructor
  · intro l n hn h2
    exact buildMapGo_dup l 0 [] n hn (Or.inl h2)
  · rintro M er ⟨r, hr⟩
    cases er with
    | error e => simp [CompileWith] at hr
    | ok m =>
      have hp : parseBytes dupPat = .ok [nameB, nameB] := rfl
      have ht : buildMap [nameB, nameB] = .error DuplicateMsg := rfl
      simp [CompileWith, hp, ht] at hr

/-- Counterexample to claim C4 as stated: the duplicate error does not
identify the duplicated name - two different duplicated names produce
the very same error value. -/
theorem claim_C4_counterexample :
    buildMap [[97], [97]] = .error DuplicateMsg ∧
    buildMap [[98], [98]] = .error DuplicateMsg ∧
    buildMap [[97], [97]] = buildMap [[98], [98]] :=
  ⟨rfl, rfl, rfl⟩

/-- Witness for claim C4 at a concrete input: the descriptor sequence
of the duplicated-name pattern triggers the duplicate error. -/
theorem claim_C4_witness :
    (nameB ≠ UnnamedCapture ∧ 2 ≤ ([nameB, nameB] : List (List Nat)).count nameB) ∧
    buildMap [nameB, nameB] = .error DuplicateMsg :=
  ⟨⟨by decide, by decide⟩, claim_C4.1 [nameB, nameB] nameB (by decide) (by decide)⟩

/-- Claim C5 (amended): the scanner fails with the trailing-escape
error whenever it reaches an escape marker as the last remaining
character (in particular on the trailing-escape test pattern), and an
escape marker followed by a character unit decoding to a code point
other than RuneError skips exactly that unit, so escaped opening and
closing delimiters never open or close a group. -/
theorem claim_C5 :
    parseBytes [92] = .error TrailingEscapeMsg ∧
    parseBytes trailingPat = .error TrailingEscapeMsg ∧
    (∀ c cs, (decodeRune (c :: cs)).1 ≠ RuneError →
      parseBytes (92 :: c :: cs) = parseBytes ((c :: cs).drop (decodeRune (c :: cs)).2)) ∧
    (∀ cs, parseBytes (92 :: 40 :: cs) = parseBytes cs) ∧
    (∀ cs, parseBytes (92 :: 41 :: cs) = parseBytes cs) := by
  refine ⟨rfl, rfl, ?_, ?_, ?_⟩
  · intro c cs h
    exact (escape_step c cs).2 h
  · intro cs
    have hd : decodeRune (40 :: cs) = (40, 1) := decodeRune_ascii 40 cs (by norm_num)
    have h := (escape_step 40 cs).2 (by rw [hd]; simp [RuneError])
    rw [hd] at h
    simpa using h
  · intro cs
    have hd : decodeRune (41 :: cs) = (41, 1) := decodeRune_ascii 41 cs (by norm_num)
    have h := (escape_step 41 cs).2 (by rw [hd]; simp [RuneError])
    rw [hd] at h
    simpa using h

/-- Counterexample to claim C5 as stated: a pattern whose last
character is the escape marker but whose scan succeeds, because that
final marker is itself escaped; Compile accepts it whenever the engine
does. -/
theorem claim_C5_counterexample :
    ([92, 92] : List Nat).getLast? = some 92 ∧
    parseBytes [92, 92] = .ok [] ∧
    CompileWith (Except.ok ()) [92, 92] = .ok ⟨[], ()⟩ :=
  ⟨rfl, rfl, rfl⟩

/-- Witness for claim C5 at a concrete input: an escaped opening
delimiter is skipped and produces no descriptor. -/
theorem claim_C5_witness :
    ((decodeRune [40]).1 ≠ RuneError) ∧
    parseBytes [92, 40] = parseBytes (([40] : List Nat).drop (decodeRune [40]).2) :=
  ⟨by decide, claim_C5.2.2.1 40 [] (by decide)⟩

/-- Claim C6 (amended): at an escape marker followed by bytes, the
scanner fails with the invalid-escape error exactly when the decoder
yields RuneError on those bytes - which happens both for bytes that do
not decode to a valid character unit and for the valid encoding of
U+FFFD itself - and otherwise skips the decoded unit; a unit counted
valid by the spec's notion is either a non-RuneError decode or that
very U+FFFD encoding. -/
theorem claim_C6 :
    (∀ c cs, (decodeRune (c :: cs)).1 = RuneError →
      parseBytes (92 :: c :: cs) = .error InvalidEscapeMsg) ∧
    (∀ c cs, (decodeRune (c :: cs)).1 ≠ RuneError →
      parseBytes (92 :: c :: cs) = parseBytes ((c :: cs).drop (decodeRune (c :: cs)).2)) ∧
    (∀ c cs, startsWithValidChar (c :: cs) = true →
      (decodeRune (c :: cs)).1 ≠ RuneError ∨ (c :: cs).take 3 = UnnamedCapture) := by
  refine ⟨?_, ?_, ?_⟩
  · intro c cs h
    exact (escape_step c cs).1 h
  · intro c cs h
    exact (escape_step c cs).2 h
  · intro c cs h
    simpa [startsWithValidChar] using h

/-- Counterexample to claim C6 as stated: the three bytes encoding
U+FFFD are a valid character unit, yet the scanner rejects them after
an escape marker with the invalid-escape error. -/
theorem claim_C6_counterexample :
    startsWithValidChar [239, 191, 189] = true ∧
    parseBytes [92, 239, 191, 189] = .error InvalidEscapeMsg :=
  ⟨rfl, rfl⟩

/-- Witness for claim C6 at a concrete input: a lone continuation byte
after the escape marker does not decode and raises the invalid-escape
error. -/
theorem claim_C6_witness :
    ((decodeRune [128]).1 = RuneError) ∧
    parseBytes [92, 128] = .error InvalidEscapeMsg :=
  ⟨by decide, claim_C6.1 128 [] (by decide)⟩

/-- Claim C7: when the engine reports no match, each single-result
operation returns the zero base value with an absent (nil) mapping,
and a projected present match always carries a present (possibly
empty) mapping, so the two outcomes are distinguishable. -/
theorem claim_C7 : ∀ (M : Type) (re : RegexpNamed M),
    FindNamed re none = some ([], none) ∧
    FindIndexNamed re none = some ([], none) ∧
    FindStringNamed re none = some ("", none) ∧
    FindStringIndexNamed re none = some ([], none) ∧
    (∀ (T S : Type) (f : List T → Nat → Option S) (zero : S) (m : List T) (b : S)
        (mm : Option (List (List Nat × S))),
      mapRe re (some m) f zero = some (b, mm) → mm ≠ none) :=
  fun M re =>
    ⟨rfl, rfl, rfl, rfl,
     fun T S f zero m b mm h => mapRe_snd_present re m f zero b mm h⟩

/-- Witness for claim C7 at a concrete input: a present raw match
projects to a present mapping, while the no-match outcome is the zero
value with the absent mapping. -/
theorem claim_C7_witness :
    (mapRe exampleRe (some ["foo 42", "foo", "42"]) getResult "" =
      some ("foo 42", some [(nameB, "foo"), (ageB, "42")])) ∧
    (some [(nameB, "foo"), (ageB, "42")] : Option (List (List Nat × String))) ≠ none ∧
    FindStringNamed exampleRe none = some ("", none) :=
  ⟨rfl,
   (claim_C7 Unit exampleRe).2.2.2.2 String String getResult "" ["foo 42", "foo", "42"]
     "foo 42" (some [(nameB, "foo"), (ageB, "42")]) rfl,
   (claim_C7 Unit exampleRe).2.2.1⟩

/-- Claim C8: single-result projection returns the raw element 0 as
base and maps each table entry of index i to raw element i in value
form, and to the offset pair at positions 2i and 2i+1 in index-pair
form; on the worked example the projection of the raw match of the
subject yields base and mapping as documented. -/
theorem claim_C8 :
    (∀ (M T : Type) (re : RegexpNamed M) (m : List T) (zero : T),
      0 < m.length → (∀ p ∈ re.namedMap, p.2 < m.length) →
      mapRe re (some m) getResult zero =
        some (m.getD 0 zero, some (re.namedMap.map (fun p => (p.1, m.getD p.2 zero))))) ∧
    (∀ (M : Type) (re : RegexpNamed M) (m : List Int),
      2 ≤ m.length → (∀ p ∈ re.namedMap, p.2 * 2 + 2 ≤ m.length) →
      mapRe re (some m) getResultIndex ([] : List Int) =
        some ([m.getD 0 0, m.getD 1 0],
          some (re.namedMap.map
            (fun p => (p.1, [m.getD (p.2 * 2) 0, m.getD (p.2 * 2 + 1) 0]))))) ∧
    CompileWith (Except.ok ()) examplePat = .ok exampleRe ∧
    FindStringNamed exampleRe (some ["foo 42", "foo", "42"]) =
      some ("foo 42", some [(nameB, "foo"), (ageB, "42")]) ∧
    FindStringIndexNamed exampleRe (some [0, 6, 0, 3, 4, 6]) =
      some ([0, 6], some [(nameB, [0, 3]), (ageB, [4, 6])]) := by
  refine ⟨?_, ?_, rfl, rfl, rfl⟩
  · intro M T re m zero h0 hp
    apply mapRe_some re m getResult zero (m.getD 0 zero) (fun p => m.getD p.2 zero)
    · exact get_opt_of_lt zero m 0 h0
    · intro p hpmem
      exact get_opt_of_lt zero m p.2 (hp p hpmem)
  · intro M re m h2 hp
    apply mapRe_some re m getResultIndex ([] : List Int) [m.getD 0 0, m.getD 1 0]
      (fun p => [m.getD (p.2 * 2) 0, m.getD (p.2 * 2 + 1) 0])
    · have h := getResultIndex_eq (0 : Int) m 0 (by omega)
      simpa using h
    · intro p hpmem
      exact getResultIndex_eq 0 m p.2 (hp p hpmem)

/-- Witness for claim C8 at a concrete input: the worked example's raw
match satisfies the bounds and projects as the claim states. -/
theorem claim_C8_witness :
    (0 < (["foo 42", "foo", "42"] : List String).length ∧
      (∀ p ∈ exampleRe.namedMap, p.2 < (["foo 42", "foo", "42"] : List String).length)) ∧
    mapRe exampleRe (some ["foo 42", "foo", "42"]) getResult "" =
      some ((["foo 42", "foo", "42"] : List String).getD 0 "",
        some (exampleRe.namedMap.map
          (fun p => (p.1, (["foo 42", "foo", "42"] : List String).getD p.2 "")))) :=
  ⟨⟨by decide, by decide⟩,
   claim_C8.1 Unit String exampleRe ["foo 42", "foo", "42"] "" (by decide) (by decide)⟩

/-- Claim C9: the repeated-result operations apply single-result
projection to every raw match of the engine's ordered sequence,
preserving order and count; on the optional-group example the two raw
matches project to the two documented pairs, the unmatched optional
named group mapping to the empty value (and to the minus-one pair in
index form) rather than being omitted. -/
theorem claim_C9 :
    (∀ (M T S : Type) (re : RegexpNamed M) (f : List T → Nat → Option S) (zero : S)
        (ms : List (List T)) (bs : List S) (mm : List (Option (List (List Nat × S)))),
      mapReAll re ms f zero = some (bs, mm) →
      bs.length = ms.length ∧ mm.length = ms.length ∧
      ∀ (j : Nat) (m : List T), ms.get? j = some m →
        ∃ b p, bs.get? j = some b ∧ mm.get? j = some p ∧
          mapRe re (some m) f zero = some (b, p)) ∧
    (∀ (M T S : Type) (re : RegexpNamed M) (f : List T → Nat → Option S) (zero : S),
      mapReAll re ([] : List (List T)) f zero = some ([], [])) ∧
    CompileWith (Except.ok ()) optionalPat = .ok exampleRe ∧
    FindAllStringNamed exampleRe [["foo 42", "foo", "42"], [" 43", "", "43"]] =
      some (["foo 42", " 43"],
        [some [(nameB, "foo"), (ageB, "42")], some [(nameB, ""), (ageB, "43")]]) ∧
    FindAllStringIndexNamed exampleRe [[0, 6, 0, 3, 4, 6], [6, 9, -1, -1, 7, 9]] =
      some ([[0, 6], [6, 9]],
        [some [(nameB, [0, 3]), (ageB, [4, 6])],
         some [(nameB, [-1, -1]), (ageB, [7, 9])]]) := by
  refine ⟨?_, ?_, rfl, rfl, rfl⟩
  · intro M T S re f zero ms bs mm h
    exact mapReAll_spec re f zero ms bs mm h
  · intro M T S re f zero
    rfl

/-- Witness for claim C9 at a concrete input: a one-element raw
sequence projects to parallel one-element sequences. -/
theorem claim_C9_witness :
    mapReAll exampleRe [["foo 42", "foo", "42"]] getResult "" =
      some (["foo 42"], [some [(nameB, "foo"), (ageB, "42")]]) ∧
    (["foo 42"] : List String).length =
      ([["foo 42", "foo", "42"]] : List (List String)).length :=
  ⟨rfl,
   (claim_C9.1 Unit String String exampleRe getResult "" [["foo 42", "foo", "42"]]
     ["foo 42"] [some [(nameB, "foo"), (ageB, "42")]] rfl).1⟩
